import Mathlib

/-!
Shallow embedding of the hazard-detection pipeline of the
Automated-Power-Line-Inspection-Bot repository, together with proofs of the
behavioural properties stated in its design document.

Embedded components:
* `DebounceState` — src/state/state_machine.py (hysteretic SAFE/HAZARD debounce);
* `HazardStateMachine` — the orchestrator's state machine in src/app.py;
* `pixel_to_angle` — src/utils1/geometry.py;
* `angle_to_duty` — src/pi/gpio_io.py;
* the contour-filtering stage of `detect_hazards_classic` — src/detectors/classic_cv.py;
* the result handling of `YOLOHazard.detect` — src/detectors/yolo.py.

Python ints are modelled as `Int`, Python floats as `ℚ` (the arithmetic the
code performs on them is exact on the inputs of interest), and Python
exceptions at the inference boundary as `Except`.
-/

/-- The two states of the hazard state machines (`'SAFE'` / `'HAZARD'` in the
Python sources). -/
inductive HazState where
  | SAFE : HazState
  | HAZARD : HazState
deriving DecidableEq

/-- State of `DebounceState` from src/state/state_machine.py: the current
state, the two configured thresholds and the two consecutive-frame counters.
Counters and thresholds are Python ints, modelled as `Int`. -/
structure DebounceState where
  current_state : HazState
  safe_to_hazard_frames : Int
  hazard_to_safe_frames : Int
  hazard_counter : Int
  safe_counter : Int
deriving DecidableEq

/-- `DebounceState.__init__`: stores the initial state, clamps both
thresholds to at least 1 with `max(1, ...)`, and zeroes both counters.
(The `ValueError` on an invalid state string is made impossible by the
`HazState` type.) -/
def DebounceState.init (initial : HazState)
    (safe_to_hazard_frames hazard_to_safe_frames : Int) : DebounceState :=
  { current_state := initial
    safe_to_hazard_frames := max 1 safe_to_hazard_frames
    hazard_to_safe_frames := max 1 hazard_to_safe_frames
    hazard_counter := 0
    safe_counter := 0 }

/-- `DebounceState.update`: on a hazard frame, increment the hazard counter,
zero the safe counter, and switch SAFE → HAZARD when the (already
incremented) hazard counter reaches `safe_to_hazard_frames`; symmetrically on
a safe frame. Returns the whole updated record (the Python method mutates and
returns `current_state`). -/
def DebounceState.update (s : DebounceState) (is_hazard_frame : Bool) : DebounceState :=
  if is_hazard_frame then
    let hc := s.hazard_counter + 1
    let st :=
      if s.current_state = HazState.SAFE ∧ s.safe_to_hazard_frames ≤ hc then
        HazState.HAZARD
      else s.current_state
    { s with hazard_counter := hc, safe_counter := 0, current_state := st }
  else
    let sc := s.safe_counter + 1
    let st :=
      if s.current_state = HazState.HAZARD ∧ s.hazard_to_safe_frames ≤ sc then
        HazState.SAFE
      else s.current_state
    { s with safe_counter := sc, hazard_counter := 0, current_state := st }

/-- `DebounceState.reset`: optionally override the current state, and zero
both counters. -/
def DebounceState.reset (s : DebounceState) (new_state : Option HazState) : DebounceState :=
  { s with
    current_state := new_state.getD s.current_state
    hazard_counter := 0
    safe_counter := 0 }

/-- Feeding a whole sequence of per-frame classifications to
`DebounceState.update`, one call per list element. -/
def DebounceState.run (s : DebounceState) (frames : List Bool) : DebounceState :=
  frames.foldl DebounceState.update s

/-- Length of the trailing run of frames equal to `b` in a classification
sequence: the current "streak" after the sequence has been consumed. -/
def trailingCount (b : Bool) (frames : List Bool) : Nat :=
  (frames.reverse.takeWhile (fun x => x == b)).length

/-- At most one of the two streak counters is nonzero, and both are
non-negative. -/
abbrev StreakInv (s : DebounceState) : Prop :=
  0 ≤ s.hazard_counter ∧ 0 ≤ s.safe_counter ∧
    (s.hazard_counter = 0 ∨ s.safe_counter = 0)

lemma DebounceState.run_cons (s : DebounceState) (b : Bool) (bs : List Bool) :
    s.run (b :: bs) = (s.update b).run bs := rfl

lemma DebounceState.run_append_singleton (s : DebounceState) (bs : List Bool) (b : Bool) :
    s.run (bs ++ [b]) = (s.run bs).update b := by
  simp [DebounceState.run, List.foldl_append]

lemma DebounceState.update_safe_to_hazard (s : DebounceState) (b : Bool) :
    (s.update b).safe_to_hazard_frames = s.safe_to_hazard_frames := by
  cases b <;> simp [DebounceState.update]

lemma DebounceState.update_hazard_to_safe (s : DebounceState) (b : Bool) :
    (s.update b).hazard_to_safe_frames = s.hazard_to_safe_frames := by
  cases b <;> simp [DebounceState.update]

lemma DebounceState.run_safe_to_hazard (s : DebounceState) (bs : List Bool) :
    (s.run bs).safe_to_hazard_frames = s.safe_to_hazard_frames := by
  induction bs generalizing s with
  | nil => rfl
  | cons b bs ih =>
      rw [DebounceState.run_cons, ih, DebounceState.update_safe_to_hazard]

lemma DebounceState.run_hazard_to_safe (s : DebounceState) (bs : List Bool) :
    (s.run bs).hazard_to_safe_frames = s.hazard_to_safe_frames := by
  induction bs generalizing s with
  | nil => rfl
  | cons b bs ih =>
      rw [DebounceState.run_cons, ih, DebounceState.update_hazard_to_safe]

lemma trailingCount_append_singleton (b : Bool) (bs : List Bool) (x : Bool) :
    trailingCount b (bs ++ [x]) =
      if x == b then trailingCount b bs + 1 else 0 := by
  unfold trailingCount
  rw [List.reverse_append]
  by_cases h : x == b <;> simp [List.takeWhile, h]

lemma DebounceState.update_true_hc (s : DebounceState) :
    (s.update true).hazard_counter = s.hazard_counter + 1 := by
  simp [DebounceState.update]

lemma DebounceState.update_true_sc (s : DebounceState) :
    (s.update true).safe_counter = 0 := by
  simp [DebounceState.update]

lemma DebounceState.update_false_sc (s : DebounceState) :
    (s.update false).safe_counter = s.safe_counter + 1 := by
  simp [DebounceState.update]

lemma DebounceState.update_false_hc (s : DebounceState) :
    (s.update false).hazard_counter = 0 := by
  simp [DebounceState.update]

lemma DebounceState.update_true_state (s : DebounceState) :
    (s.update true).current_state =
      if s.current_state = HazState.SAFE ∧ s.safe_to_hazard_frames ≤ s.hazard_counter + 1
      then HazState.HAZARD else s.current_state := by
  simp [DebounceState.update]

lemma DebounceState.update_false_state (s : DebounceState) :
    (s.update false).current_state =
      if s.current_state = HazState.HAZARD ∧ s.hazard_to_safe_frames ≤ s.safe_counter + 1
      then HazState.SAFE else s.current_state := by
  simp [DebounceState.update]

lemma DebounceState.run_counters (i : HazState) (eT xT : Int) (bs : List Bool) :
    ((DebounceState.init i eT xT).run bs).hazard_counter = (trailingCount true bs : Int) ∧
    ((DebounceState.init i eT xT).run bs).safe_counter = (trailingCount false bs : Int) := by
  induction bs using List.reverseRecOn with
  | nil => simp [DebounceState.run, DebounceState.init, trailingCount]
  | append_singleton bs x ih =>
      rw [DebounceState.run_append_singleton]
      rcases ih with ⟨ih1, ih2⟩
      cases x <;>
        simp [DebounceState.update, trailingCount_append_singleton, ih1, ih2]

/-- Reachability invariant of the debounce machine: thresholds are at least 1,
counters are non-negative and mutually exclusive, and the counter driving the
next possible transition is strictly below its threshold. -/
def DebounceState.Inv (s : DebounceState) : Prop :=
  1 ≤ s.safe_to_hazard_frames ∧ 1 ≤ s.hazard_to_safe_frames ∧
  StreakInv s ∧
  (s.current_state = HazState.SAFE → s.hazard_counter < s.safe_to_hazard_frames) ∧
  (s.current_state = HazState.HAZARD → s.safe_counter < s.hazard_to_safe_frames)

lemma DebounceState.init_inv (i : HazState) (eT xT : Int) :
    (DebounceState.init i eT xT).Inv := by
  refine ⟨le_max_left 1 eT, le_max_left 1 xT, ⟨le_refl 0, le_refl 0, Or.inl rfl⟩, ?_, ?_⟩ <;>
    intro _ <;> simp [DebounceState.init]

lemma DebounceState.update_inv (s : DebounceState) (b : Bool) (h : s.Inv) :
    (s.update b).Inv := by
  obtain ⟨h1, h2, ⟨hc0, sc0, hmux⟩, hs, hh⟩ := h
  cases b with
  | true =>
      refine ⟨by rw [s.update_safe_to_hazard]; exact h1,
        by rw [s.update_hazard_to_safe]; exact h2,
        ⟨by rw [s.update_true_hc]; omega, by rw [s.update_true_sc],
          Or.inr s.update_true_sc⟩, ?_, ?_⟩ <;>
        simp only [DebounceState.update_true_state, DebounceState.update_safe_to_hazard,
          DebounceState.update_hazard_to_safe, DebounceState.update_true_hc,
          DebounceState.update_true_sc] <;>
        split <;> rename_i hcond <;> intro hst <;>
        simp_all <;> omega
  | false =>
      refine ⟨by rw [s.update_safe_to_hazard]; exact h1,
        by rw [s.update_hazard_to_safe]; exact h2,
        ⟨by rw [s.update_false_hc], by rw [s.update_false_sc]; omega,
          Or.inl s.update_false_hc⟩, ?_, ?_⟩ <;>
        simp only [DebounceState.update_false_state, DebounceState.update_safe_to_hazard,
          DebounceState.update_hazard_to_safe, DebounceState.update_false_hc,
          DebounceState.update_false_sc] <;>
        split <;> rename_i hcond <;> intro hst <;>
        simp_all <;> omega

lemma DebounceState.run_inv (s : DebounceState) (bs : List Bool) (h : s.Inv) :
    (s.run bs).Inv := by
  induction bs generalizing s with
  | nil => exact h
  | cons b bs ih =>
      rw [DebounceState.run_cons]
      exact ih _ (s.update_inv b h)

lemma DebounceState.update_state_change (s : DebounceState) (b : Bool) (h : s.Inv) :
    (s.update b).current_state ≠ s.current_state ↔
      (b = true ∧ s.current_state = HazState.SAFE ∧
        s.hazard_counter + 1 = s.safe_to_hazard_frames) ∨
      (b = false ∧ s.current_state = HazState.HAZARD ∧
        s.safe_counter + 1 = s.hazard_to_safe_frames) := by
  obtain ⟨h1, h2, ⟨hc0, sc0, hmux⟩, hs, hh⟩ := h
  cases b with
  | true =>
      by_cases ht : s.current_state = HazState.SAFE ∧ s.safe_to_hazard_frames ≤ s.hazard_counter + 1
      · obtain ⟨hsafe, hle⟩ := ht
        have hlt := hs hsafe
        constructor
        · intro _; exact Or.inl ⟨rfl, hsafe, by omega⟩
        · intro _
          simp [DebounceState.update, hsafe, hle]
      · constructor
        · intro hne
          exact absurd (by simp [DebounceState.update, ht]) hne
        · rintro (⟨_, hsafe, heq⟩ | ⟨hfalse, _, _⟩)
          · exact absurd ⟨hsafe, by omega⟩ ht
          · exact absurd hfalse (by decide)
  | false =>
      by_cases ht : s.current_state = HazState.HAZARD ∧ s.hazard_to_safe_frames ≤ s.safe_counter + 1
      · obtain ⟨hhaz, hle⟩ := ht
        have hlt := hh hhaz
        constructor
        · intro _; exact Or.inr ⟨rfl, hhaz, by omega⟩
        · intro _
          simp [DebounceState.update, hhaz, hle]
      · constructor
        · intro hne
          exact absurd (by simp [DebounceState.update, ht]) hne
        · rintro (⟨hfalse, _, _⟩ | ⟨_, hhaz, heq⟩)
          · exact absurd hfalse (by decide)
          · exact absurd ⟨hhaz, by omega⟩ ht

/-- The debounce machine's state after a whole classification sequence,
starting from the initial SAFE state with both streak counters zero, with the
configured thresholds. -/
def debounce_trace (eT xT : Int) (frames : List Bool) : DebounceState :=
  (DebounceState.init HazState.SAFE eT xT).run frames

/-- C1: starting from SAFE with zero counters, the hazard counter always
equals the length of the trailing run of hazard frames and the safe counter
that of safe frames (every opposite observation resets the other streak); an
update changes the state exactly when, in SAFE, a hazard observation brings
the hazard streak up to `enterThreshold` (the stored `max 1 eT`), or, in
HAZARD, a safe observation brings the safe streak up to `exitThreshold`
(`max 1 xT`); at every other update the state is unchanged, so the machine
stays SAFE until a hazard streak reaches the enter threshold and stays HAZARD
until a safe streak reaches the exit threshold. -/
theorem C1_debounce_temporal (eT xT : Int) (frames : List Bool) (b : Bool) :
    (debounce_trace eT xT frames).safe_to_hazard_frames = max 1 eT ∧
    (debounce_trace eT xT frames).hazard_to_safe_frames = max 1 xT ∧
    (debounce_trace eT xT frames).hazard_counter = (trailingCount true frames : Int) ∧
    (debounce_trace eT xT frames).safe_counter = (trailingCount false frames : Int) ∧
    (((debounce_trace eT xT frames).update true).hazard_counter =
        (debounce_trace eT xT frames).hazard_counter + 1 ∧
      ((debounce_trace eT xT frames).update true).safe_counter = 0) ∧
    (((debounce_trace eT xT frames).update false).safe_counter =
        (debounce_trace eT xT frames).safe_counter + 1 ∧
      ((debounce_trace eT xT frames).update false).hazard_counter = 0) ∧
    (((debounce_trace eT xT frames).update b).current_state ≠
        (debounce_trace eT xT frames).current_state ↔
      (b = true ∧ (debounce_trace eT xT frames).current_state = HazState.SAFE ∧
        (debounce_trace eT xT frames).hazard_counter + 1 = max 1 eT) ∨
      (b = false ∧ (debounce_trace eT xT frames).current_state = HazState.HAZARD ∧
        (debounce_trace eT xT frames).safe_counter + 1 = max 1 xT)) := by
  set s := debounce_trace eT xT frames with hs
  have hsth : s.safe_to_hazard_frames = max 1 eT :=
    DebounceState.run_safe_to_hazard _ frames
  have hhts : s.hazard_to_safe_frames = max 1 xT :=
    DebounceState.run_hazard_to_safe _ frames
  have hcounters := DebounceState.run_counters HazState.SAFE eT xT frames
  have hinv : s.Inv :=
    DebounceState.run_inv _ frames (DebounceState.init_inv HazState.SAFE eT xT)
  refine ⟨hsth, hhts, hcounters.1, hcounters.2,
    ⟨s.update_true_hc, s.update_true_sc⟩,
    ⟨s.update_false_sc, s.update_false_hc⟩, ?_⟩
  rw [← hsth, ← hhts]
  exact DebounceState.update_state_change s b hinv

/-- C2 as stated is false on the code: with `enterThreshold = 3` and
`exitThreshold = 5`, the sequence `[H, H, S, H, H, H]` ends in state HAZARD,
not SAFE — the single safe frame only resets the first streak, and the last
three hazard frames form a fresh streak reaching the threshold. -/
theorem C2_counterexample :
    ((DebounceState.init HazState.SAFE 3 5).run
        [true, true, false, true, true, true]).current_state = HazState.HAZARD ∧
    ¬ ((DebounceState.init HazState.SAFE 3 5).run
        [true, true, false, true, true, true]).current_state = HazState.SAFE := by
  decide

/-- C2 (amended): with `enterThreshold = 3`, `exitThreshold = 5` and initial
state SAFE, `[H, H, S, H, H, H]` ends in state HAZARD, the transition
occurring exactly at the sixth update (the state is still SAFE after five
updates); `[H, H, H, H]` becomes HAZARD exactly at the third hazard update
(SAFE after the first two, HAZARD from the third onward). -/
theorem C2_amended_traces :
    (((DebounceState.init HazState.SAFE 3 5).run
        [true, true, false, true, true, true]).current_state = HazState.HAZARD ∧
      ((DebounceState.init HazState.SAFE 3 5).run
        [true, true, false, true, true]).current_state = HazState.SAFE) ∧
    (((DebounceState.init HazState.SAFE 3 5).run [true]).current_state = HazState.SAFE ∧
      ((DebounceState.init HazState.SAFE 3 5).run
        [true, true]).current_state = HazState.SAFE ∧
      ((DebounceState.init HazState.SAFE 3 5).run
        [true, true, true]).current_state = HazState.HAZARD ∧
      ((DebounceState.init HazState.SAFE 3 5).run
        [true, true, true, true]).current_state = HazState.HAZARD) := by
  decide

/-- C4: in the initial state both streak counters are zero, and the
predicate "both counters non-negative and at most one nonzero" is preserved
by every `update` and every `reset` of the debounce state machine. -/
theorem C4_streak_invariant (i : HazState) (eT xT : Int) (s : DebounceState)
    (b : Bool) (ns : Option HazState) (h : StreakInv s) :
    StreakInv (DebounceState.init i eT xT) ∧
    StreakInv (s.update b) ∧ StreakInv (s.reset ns) := by
  obtain ⟨hc0, sc0, hmux⟩ := h
  refine ⟨⟨le_refl 0, le_refl 0, Or.inl rfl⟩, ?_, ?_⟩
  · cases b with
    | true =>
        exact ⟨by rw [s.update_true_hc]; omega, by rw [s.update_true_sc],
          Or.inr s.update_true_sc⟩
    | false =>
        exact ⟨by rw [s.update_false_hc], by rw [s.update_false_sc]; omega,
          Or.inl s.update_false_hc⟩
  · exact ⟨le_refl 0, le_refl 0, Or.inl rfl⟩

/-- Witness for C4 at a concrete state. -/
theorem C4_streak_invariant_witness :
    StreakInv ((DebounceState.init HazState.SAFE 3 5).update true) ∧
    StreakInv ((DebounceState.init HazState.SAFE 3 5).reset (some HazState.HAZARD)) :=
  ⟨(C4_streak_invariant HazState.SAFE 3 5 (DebounceState.init HazState.SAFE 3 5) true
      (some HazState.HAZARD) (by decide)).2.1,
    (C4_streak_invariant HazState.SAFE 3 5 (DebounceState.init HazState.SAFE 3 5) true
      (some HazState.HAZARD) (by decide)).2.2⟩

/-- C7: `reset(newState)` zeroes both counters and sets the state to
`newState`, and from then on any sequence of updates behaves exactly as on a
freshly constructed machine with initial state `newState` and the same
thresholds. -/
theorem C7_reset_fresh_start (i ns : HazState) (eT xT : Int) (past future : List Bool) :
    ((((DebounceState.init i eT xT).run past).reset (some ns)).hazard_counter = 0 ∧
      (((DebounceState.init i eT xT).run past).reset (some ns)).safe_counter = 0 ∧
      (((DebounceState.init i eT xT).run past).reset (some ns)).current_state = ns) ∧
    ((((DebounceState.init i eT xT).run past).reset (some ns)).run future =
      (DebounceState.init ns eT xT).run future) := by
  have hkey : ((DebounceState.init i eT xT).run past).reset (some ns) =
      DebounceState.init ns eT xT := by
    have h1 := DebounceState.run_safe_to_hazard (DebounceState.init i eT xT) past
    have h2 := DebounceState.run_hazard_to_safe (DebounceState.init i eT xT) past
    simp only [DebounceState.reset, DebounceState.init, Option.getD] at h1 h2 ⊢
    cases h : (DebounceState.init i eT xT).run past
    simp_all [DebounceState.init]
  rw [hkey]
  exact ⟨⟨rfl, rfl, rfl⟩, rfl⟩

/-- `pixel_to_angle` from src/utils1/geometry.py: linear pixel-offset to
angle conversion. The Python default `hfov_deg=60.0` is passed explicitly at
every use here. -/
def pixel_to_angle (center_x frame_width hfov_deg : ℚ) : ℚ :=
  let dx := center_x - frame_width / 2
  (dx / (frame_width / 2)) * (hfov_deg / 2)

/-- C5: `pixel_to_angle` computes exactly the documented formula
`((centerX − frameWidth/2) / (frameWidth/2)) × (FOV/2)`; at the frame center
it is 0 for any FOV, and at the edges of a 640-wide frame with a 60-degree
FOV it is −30 and +30. -/
theorem C5_pixel_to_angle_formula (center_x frame_width hfov_deg : ℚ)
    (hw : 0 < frame_width) :
    pixel_to_angle center_x frame_width hfov_deg =
      ((center_x - frame_width / 2) / (frame_width / 2)) * (hfov_deg / 2) ∧
    pixel_to_angle (frame_width / 2) frame_width hfov_deg = 0 ∧
    pixel_to_angle 0 640 60 = -30 ∧
    pixel_to_angle 640 640 60 = 30 := by
  refine ⟨rfl, ?_, by norm_num [pixel_to_angle], by norm_num [pixel_to_angle]⟩
  have hne : frame_width / 2 ≠ 0 := by positivity
  simp [pixel_to_angle]

/-- Witness for C5 at frame width 640. -/
theorem C5_pixel_to_angle_witness :
    pixel_to_angle 320 640 60 =
      ((320 - 640 / 2) / (640 / 2)) * (60 / 2) ∧
    pixel_to_angle (640 / 2) 640 60 = 0 ∧
    pixel_to_angle 0 640 60 = -30 ∧
    pixel_to_angle 640 640 60 = 30 :=
  C5_pixel_to_angle_formula 320 640 60 (by norm_num)

/-- A detection as the orchestrator in src/app.py consumes it: a dictionary
with bounding-box fields `x`, `y`, `w`, `h` (the shape both detectors emit).
Coordinates are modelled as `ℚ` since the orchestrator does rational
arithmetic on them. -/
structure AppDetection where
  x : ℚ
  y : ℚ
  w : ℚ
  h : ℚ
deriving DecidableEq

/-- State of `HazardStateMachine` from src/app.py. -/
structure HazardStateMachine where
  debounce_frames : Int
  hazard_count : Int
  current_state : HazState
deriving DecidableEq

/-- `HazardStateMachine.__init__` with its default `debounce_frames = 3`. -/
def HazardStateMachine.init (debounce_frames : Int) : HazardStateMachine :=
  { debounce_frames := debounce_frames
    hazard_count := 0
    current_state := HazState.SAFE }

/-- `HazardStateMachine.update` from src/app.py: bump or zero the hazard
count by whether the detection list is non-empty; transition with debounce;
then compute the servo angle from the first detection's bounding-box center
as `(x_center / 640 · 180) − 90` clamped to `[-90, 90]`, or `0` when there is
no detection. Returns the updated machine together with the Python return
value `(state, servo_angle)`. -/
def HazardStateMachine.update (m : HazardStateMachine) (detections : List AppDetection) :
    HazardStateMachine × HazState × ℚ :=
  let hc := if detections.length > 0 then m.hazard_count + 1 else 0
  let st :=
    if m.debounce_frames ≤ hc ∧ m.current_state = HazState.SAFE then HazState.HAZARD
    else if hc = 0 ∧ m.current_state = HazState.HAZARD then HazState.SAFE
    else m.current_state
  let servo_angle : ℚ :=
    match detections with
    | [] => 0
    | det :: _ =>
      let x_center := det.x + det.w / 2
      max (-90) (min 90 (x_center / 640 * 180 - 90))
  ({ m with hazard_count := hc, current_state := st }, st, servo_angle)

/-- C3 as stated is false on the code: for the concrete detection
`{x = 0, w = 0}` the orchestrator emits the angle −90, while the §4.4 formula
with the default 60-degree FOV over the 640-pixel frame width gives −30 at
the same bounding-box center; the two differ. -/
theorem C3_counterexample :
    ((HazardStateMachine.init 3).update [⟨0, 0, 0, 0⟩]).2.2 = -90 ∧
    pixel_to_angle ((0 : ℚ) + 0 / 2) 640 60 = -30 ∧
    ((HazardStateMachine.init 3).update [⟨0, 0, 0, 0⟩]).2.2 ≠
      pixel_to_angle ((0 : ℚ) + 0 / 2) 640 60 := by
  refine ⟨?_, ?_, ?_⟩ <;>
    norm_num [HazardStateMachine.update, HazardStateMachine.init, pixel_to_angle]

/-- C3 (amended): for every processed frame the orchestrator's emitted angle
is 0 when the detection list is empty (the formula is never invoked), and
otherwise is the fixed-assumed-width linear map of the first detection's
bounding-box center — equivalently `pixel_to_angle` taken at frame width 640
and FOV 180, not the default 60 — clamped to `[-90, 90]`. -/
theorem C3_amended_orchestrator_angle (m : HazardStateMachine)
    (detections : List AppDetection) :
    (m.update detections).2.2 =
      match detections with
      | [] => 0
      | det :: _ =>
          max (-90) (min 90 (pixel_to_angle (det.x + det.w / 2) 640 180)) := by
  cases detections with
  | nil => rfl
  | cons det rest =>
      show max (-90) (min 90 ((det.x + det.w / 2) / 640 * 180 - 90)) = _
      have : (det.x + det.w / 2) / 640 * 180 - 90 =
          pixel_to_angle (det.x + det.w / 2) 640 180 := by
        simp only [pixel_to_angle]
        ring
      rw [this]

/-- C10: the servo angle returned by `HazardStateMachine.update` always lies
in `[-90, 90]`: it is 0 on an empty detection list and otherwise the
fixed-width linear mapping of the first detection's bounding-box center x,
explicitly clamped to that interval. -/
theorem C10_servo_angle_range (m : HazardStateMachine) (detections : List AppDetection) :
    -90 ≤ (m.update detections).2.2 ∧ (m.update detections).2.2 ≤ 90 ∧
    (m.update detections).2.2 =
      match detections with
      | [] => 0
      | det :: _ => max (-90) (min 90 ((det.x + det.w / 2) / 640 * 180 - 90)) := by
  cases detections with
  | nil => exact ⟨by norm_num [HazardStateMachine.update], by norm_num [HazardStateMachine.update], rfl⟩
  | cons det rest =>
      refine ⟨le_max_left _ _, ?_, rfl⟩
      exact max_le (by norm_num) (min_le_left _ _)

/-- Duty cycle for 0 degrees (`DUTY_MIN` in src/pi/gpio_io.py). -/
def DUTY_MIN : ℚ := 2.5

/-- Duty cycle for 180 degrees (`DUTY_MAX` in src/pi/gpio_io.py). -/
def DUTY_MAX : ℚ := 12.5

/-- `angle_to_duty` from src/pi/gpio_io.py: clamp the angle to `[0, 180]`
with `max(0, min(180, angle_deg))`, then interpolate linearly between the
duty-cycle limits. -/
def angle_to_duty (angle_deg : ℚ) : ℚ :=
  let clamped := max 0 (min 180 angle_deg)
  DUTY_MIN + (clamped / 180) * (DUTY_MAX - DUTY_MIN)

/-- C9: for every input angle, `angle_to_duty` first clamps the angle to
`[0, 180]` and returns `2.5 + (clampedAngle/180) × 10.0`, and the result
always lies in `[2.5, 12.5]`. -/
theorem C9_angle_to_duty (angle_deg : ℚ) :
    angle_to_duty angle_deg = 2.5 + (max 0 (min 180 angle_deg) / 180) * 10 ∧
    2.5 ≤ angle_to_duty angle_deg ∧ angle_to_duty angle_deg ≤ 12.5 := by
  have h0 : (0 : ℚ) ≤ max 0 (min 180 angle_deg) := le_max_left 0 _
  have h180 : max 0 (min 180 angle_deg) ≤ 180 :=
    max_le (by norm_num) (min_le_left 180 angle_deg)
  refine ⟨by norm_num [angle_to_duty, DUTY_MIN, DUTY_MAX], ?_, ?_⟩ <;>
    simp only [angle_to_duty, DUTY_MIN, DUTY_MAX] <;> nlinarith [h0, h180]

/-- An external contour of the candidate mask as the filtering stage of
`detect_hazards_classic` (src/detectors/classic_cv.py) sees it: its
`cv2.contourArea` and its axis-aligned `cv2.boundingRect`. The pixel-level
contour extraction is an OpenCV primitive outside the embedding; its outputs
are taken as given data. -/
structure Contour where
  area : ℚ
  x : Int
  y : Int
  w : Int
  h : Int
deriving DecidableEq

/-- Body of the contour loop of `detect_hazards_classic`: skip a contour
whose area is below `min_area`, skip one whose bounding box is narrower or
shorter than 10 pixels, and append the bounding box of any other to the
accumulated list. -/
def classic_box_step (min_area : ℚ) (boxes : List (Int × Int × Int × Int))
    (cnt : Contour) : List (Int × Int × Int × Int) :=
  if cnt.area < min_area then boxes
  else if cnt.w < 10 ∨ cnt.h < 10 then boxes
  else boxes ++ [(cnt.x, cnt.y, cnt.w, cnt.h)]

/-- The contour-filtering stage of `detect_hazards_classic` (lines 92-104):
the loop over the contours found in the candidate mask, starting from an
empty box list. -/
def detect_hazards_classic_boxes (min_area : ℚ) (contours : List Contour) :
    List (Int × Int × Int × Int) :=
  contours.foldl (classic_box_step min_area) []

/-- Boolean form of the survival condition of a contour. -/
def contour_keep (min_area : ℚ) (c : Contour) : Bool :=
  decide (min_area ≤ c.area) && (decide (10 ≤ c.w) && decide (10 ≤ c.h))

lemma detect_hazards_classic_boxes_go (min_area : ℚ) (contours : List Contour)
    (acc : List (Int × Int × Int × Int)) :
    contours.foldl (classic_box_step min_area) acc =
      acc ++ (contours.filter (contour_keep min_area)).map
        (fun c => (c.x, c.y, c.w, c.h)) := by
  induction contours generalizing acc with
  | nil => simp
  | cons c cs ih =>
      rw [List.foldl_cons, ih]
      by_cases h1 : c.area < min_area
      · have hk : contour_keep min_area c = false := by
          simp [contour_keep, not_le.mpr h1]
        simp [classic_box_step, h1, List.filter_cons, hk]
      · by_cases h2 : c.w < 10 ∨ c.h < 10
        · have hk : contour_keep min_area c = false := by
            rcases h2 with h2 | h2 <;> simp [contour_keep, not_le.mpr h2]
          simp [classic_box_step, h1, h2, List.filter_cons, hk]
        · have hk : contour_keep min_area c = true := by
            push_neg at h2
            simp [contour_keep, not_lt.mp h1, h2.1, h2.2]
          simp [classic_box_step, h1, h2, List.filter_cons, hk]

/-- C6: the box list produced by the classic detector's contour filter is
exactly the bounding boxes of those contours whose area is at least
`min_area` and whose bounding-box width and height are both at least 10
pixels, in order; every other contour is discarded, and when no contour
survives the result is the empty list, not an error. -/
theorem C6_classic_contour_filter (min_area : ℚ) (contours : List Contour) :
    detect_hazards_classic_boxes min_area contours =
      (contours.filter (contour_keep min_area)).map
        (fun c => (c.x, c.y, c.w, c.h)) ∧
    ((∀ c ∈ contours, c.area < min_area ∨ c.w < 10 ∨ c.h < 10) →
      detect_hazards_classic_boxes min_area contours = []) := by
  have hmain := detect_hazards_classic_boxes_go min_area contours []
  rw [List.nil_append] at hmain
  refine ⟨hmain, fun hall => ?_⟩
  rw [detect_hazards_classic_boxes, hmain, List.map_eq_nil_iff, List.filter_eq_nil_iff]
  intro c hc
  rcases hall c hc with h | h | h <;>
    simp [contour_keep, not_le.mpr h]

/-- A raw box from the Ultralytics result object in `YOLOHazard.detect`
(src/detectors/yolo.py): corner coordinates after `map(int, xyxy)`, the
confidence and the class id. -/
structure RawBox where
  x1 : Int
  y1 : Int
  x2 : Int
  y2 : Int
  conf : ℚ
  cls : Int
deriving DecidableEq

/-- A normalized detection dictionary as `YOLOHazard.detect` returns it. -/
structure YoloDetection where
  x : Int
  y : Int
  w : Int
  h : Int
  conf : ℚ
  class_id : Int
  label : String
deriving DecidableEq

/-- Conversion of one raw box inside the result loop of `YOLOHazard.detect`:
xyxy corners to x/y/w/h, class id looked up in `class_names` with the
fallback label `"class_<id>"`. -/
def YOLOHazard.convert_box (class_names : Int → Option String) (b : RawBox) :
    YoloDetection :=
  { x := b.x1
    y := b.y1
    w := b.x2 - b.x1
    h := b.y2 - b.y1
    conf := b.conf
    class_id := b.cls
    label := (class_names b.cls).getD ("class_" ++ toString b.cls) }

/-- `YOLOHazard.detect`: skip the frame entirely when the sampling policy
says so (`every_n_frames > 1` and the incremented frame counter is not a
multiple of it); otherwise run inference — modelled as an `Except` value,
since the Python wraps the model call and result processing in
`try/except` — returning the converted boxes on success and the empty list
when the backend raised. -/
def YOLOHazard.detect (class_names : Int → Option String) (frame_count : Int)
    (every_n_frames : Int) (inference : Except String (List RawBox)) :
    List YoloDetection :=
  if every_n_frames > 1 ∧ ¬ frame_count % every_n_frames = 0 then []
  else
    match inference with
    | Except.error _ => []
    | Except.ok boxes => boxes.map (YOLOHazard.convert_box class_names)

/-- C8: if the inference backend raises any exception during `detect`, the
exception is caught at the detector boundary and `detect` returns an empty
detection list for that frame instead of propagating the error, so the
caller still receives a decision. -/
theorem C8_yolo_detect_catches (class_names : Int → Option String)
    (frame_count every_n_frames : Int) (msg : String) :
    YOLOHazard.detect class_names frame_count every_n_frames
      (Except.error msg) = [] := by
  rw [YOLOHazard.detect]
  split <;> rfl
